import Mathlib

/-!
Shallow embedding of the Checkers rule engine (`src/checkers_logic.py`).

The board is a list of rows of cells; indexing that can raise `IndexError`
in Python is modelled with `Option` (a `none` result corresponds to an
uncaught exception).  The recursive capture search threads the mutable
`memo` set and `eaten_pieces` list explicitly; all other fields of the
game object are read-only inside the search, matching the source.

`constants.py` of the repository is not under `src/`; the cell and player
enumerations and the `OPOSITES` table are modelled from the spec where
marked below.
-/

namespace Checkers

/-- Modelled from the spec: `constants.py` (not under `src/`) defines the
cell values `EMPTY`, `GREEN_PIECE`, `GREEN_QUEEN`, `ORANGE_PIECE`,
`ORANGE_QUEEN`; the spec fixes these five distinct cell contents. -/
inductive Cell where
  | empty
  | greenPiece
  | greenQueen
  | orangePiece
  | orangeQueen
deriving DecidableEq, Repr

/-- Modelled from the spec: `constants.py` defines the two players
`PLAYER_GREEN` and `PLAYER_ORANGE`. -/
inductive Player where
  | green
  | orange
deriving DecidableEq, Repr

/-- The game object: the fields of `CheckersLogic` set up by `init_game`. -/
structure CheckersLogic where
  board : List (List Cell)
  green_pieces : Int
  orange_pieces : Int
  eaten_pieces : List (Nat × Nat)
  current_player : Player
  winner : Option Player
  memo : Finset (Nat × Nat)
deriving DecidableEq

/-- `self.board[row][col]` as a read; `none` models an `IndexError`. -/
def get_piece? (board : List (List Cell)) (row col : Nat) : Option Cell :=
  match board.get? row with
  | none => none
  | some r => r.get? col

/-- `self.board[row][col] = v` as a write; `none` models an `IndexError`. -/
def set_cell? (board : List (List Cell)) (row col : Nat) (v : Cell) :
    Option (List (List Cell)) :=
  match board.get? row with
  | none => none
  | some r => if col < r.length then some (board.set row (r.set col v)) else none

/-- Modelled from the spec: `constants.py` defines `OPOSITES`, mapping each
player to the pieces of the opponent (the spec reads `check_opposite` as
"true iff the piece belongs to the opponent"). -/
def opposites : Player → List Cell
  | Player.green => [Cell.orangePiece, Cell.orangeQueen]
  | Player.orange => [Cell.greenPiece, Cell.greenQueen]

/-- `check_opposite` from `checkers_logic.py`. -/
def check_opposite (player : Player) (piece_two : Cell) : Bool :=
  (opposites player).contains piece_two

/-- `check_same_move` from `checkers_logic.py`. -/
def check_same_move (init_row init_col end_row end_col : Nat) : Bool :=
  init_row == end_row && init_col == end_col

/-- `check_wrong_direction` from `checkers_logic.py`; the initial
`get_piece` can raise, hence `Option`. -/
def check_wrong_direction (board : List (List Cell)) (init_row init_col end_row : Nat) :
    Option Bool :=
  match get_piece? board init_row init_col with
  | none => none
  | some piece =>
    if piece = Cell.greenPiece ∧ (end_row : Int) - (init_row : Int) ≤ 0 then some true
    else if piece = Cell.orangePiece ∧ 0 ≤ (end_row : Int) - (init_row : Int) then some true
    else some false

/-- `check_basic_move` from `checkers_logic.py`: `true` iff the destination
square is occupied. -/
def check_basic_move (board : List (List Cell)) (end_row end_col : Nat) : Option Bool :=
  match get_piece? board end_row end_col with
  | none => none
  | some p => some (p != Cell.empty)

/-- `check_valid_piece` from `checkers_logic.py` (`ENUM_NORMAL` /
`ENUM_PROMOTED` of `constants.py` modelled from the spec: the man and king
of the current player). -/
def check_valid_piece (s : CheckersLogic) (init_row init_col : Nat) : Option Bool :=
  match get_piece? s.board init_row init_col with
  | none => none
  | some piece =>
    match s.current_player with
    | Player.green => some (piece = Cell.greenPiece ∨ piece = Cell.greenQueen : Bool)
    | Player.orange => some (piece = Cell.orangePiece ∨ piece = Cell.orangeQueen : Bool)

/-- `check_end` from `checkers_logic.py`: two sequential `if`s, the orange
count checked second. -/
def check_end (s : CheckersLogic) : CheckersLogic :=
  let s1 := if s.green_pieces = 0 then { s with winner := some Player.orange } else s
  if s1.orange_pieces = 0 then { s1 with winner := some Player.green } else s1

/-- `eat_pieces` from `checkers_logic.py`: clear every square in
`eaten_pieces`, decrement the opponent count by the number of cleared
squares, reset the list. -/
def eat_pieces (s : CheckersLogic) : Option CheckersLogic :=
  match s.eaten_pieces.foldlM (fun b p => set_cell? b p.1 p.2 Cell.empty) s.board with
  | none => none
  | some board2 =>
    let counter : Int := s.eaten_pieces.length
    if s.current_player = Player.green then
      some { s with
             board := board2
             orange_pieces := s.orange_pieces - counter
             eaten_pieces := [] }
    else
      some { s with
             board := board2
             green_pieces := s.green_pieces - counter
             eaten_pieces := [] }

/-- `check_piece_promotion_and_promote` from `checkers_logic.py`. -/
def check_piece_promotion_and_promote (s : CheckersLogic) (end_row end_col : Nat) :
    Option CheckersLogic :=
  match (if s.current_player = Player.green ∧ end_row = s.board.length - 1 then
           (set_cell? s.board end_row end_col Cell.greenQueen).map
             (fun b => { s with board := b })
         else some s) with
  | none => none
  | some s1 =>
    if s1.current_player = Player.orange ∧ end_row = 0 then
      (set_cell? s1.board end_row end_col Cell.orangeQueen).map
        (fun b => { s1 with board := b })
    else some s1

/-- Strict decrease of the capture-search termination measure: one fresh
square `(ir, ic)` enters the visited set, and the bounding box of squares
the search can still reach does not grow. -/
theorem search_measure_lt {L ir ic ir2 ic2 : Nat} {memo memoBig : Finset (Nat × Nat)}
    (hmem : (ir, ic) ∉ memo) (hgrow : insert (ir, ic) memo ⊆ memoBig)
    (hr : max (ir2 + 1) L ≤ max (ir + 1) L) (hc : max (ic2 + 1) L ≤ max (ic + 1) L) :
    ((Finset.range (max (ir2 + 1) L) ×ˢ Finset.range (max (ic2 + 1) L)) \ memoBig).card
      < ((Finset.range (max (ir + 1) L) ×ˢ Finset.range (max (ic + 1) L)) \ memo).card := by
  apply Finset.card_lt_card
  have hsub : (Finset.range (max (ir2 + 1) L) ×ˢ Finset.range (max (ic2 + 1) L)) \ memoBig
      ⊆ (Finset.range (max (ir + 1) L) ×ˢ Finset.range (max (ic + 1) L)) \ memo := by
    intro x hx
    rcases Finset.mem_sdiff.mp hx with ⟨hxU, hxm⟩
    rcases Finset.mem_product.mp hxU with ⟨hx1, hx2⟩
    refine Finset.mem_sdiff.mpr ⟨Finset.mem_product.mpr ⟨?_, ?_⟩, ?_⟩
    · exact Finset.mem_range.mpr (lt_of_lt_of_le (Finset.mem_range.mp hx1) hr)
    · exact Finset.mem_range.mpr (lt_of_lt_of_le (Finset.mem_range.mp hx2) hc)
    · exact fun hxmem => hxm (hgrow (Finset.mem_insert_of_mem hxmem))
  rw [Finset.ssubset_iff_of_subset hsub]
  refine ⟨(ir, ic), ?_, ?_⟩
  · refine Finset.mem_sdiff.mpr ⟨Finset.mem_product.mpr ⟨?_, ?_⟩, hmem⟩
    · exact Finset.mem_range.mpr (lt_of_lt_of_le (Nat.lt_succ_self ir) (Nat.le_max_left _ _))
    · exact Finset.mem_range.mpr (lt_of_lt_of_le (Nat.lt_succ_self ic) (Nat.le_max_left _ _))
  · exact fun hx => (Finset.mem_sdiff.mp hx).2 (hgrow (Finset.mem_insert_self _ _))

/-- `check_longer_move` from `checkers_logic.py`, with the mutable state
threaded explicitly: the method reads `self.board`, `self.current_player`,
`self.memo` and `self.eaten_pieces`, writes `self.memo` (adding the current
square) and `self.eaten_pieces` (at the base case), and returns a truthiness
value (`None` and `False` both behave as `false`, so the result is a `Bool`).
The returned visited set is packaged with the proof that it only grew, which
is what makes the shared-mutation recursion well-founded.  An out-of-range
board read (`IndexError`) is the outer `none`. -/
def check_longer_move_aux (board : List (List Cell)) (player : Player) (piece : Cell)
    (init_row init_col end_row end_col : Nat) (eaten : List (Nat × Nat))
    (memo : Finset (Nat × Nat)) (eaten_pieces : List (Nat × Nat)) :
    Option (Bool × {m : Finset (Nat × Nat) // memo ⊆ m} × List (Nat × Nat)) :=
  if hmem : (init_row, init_col) ∈ memo then
    some (false, ⟨memo, Finset.Subset.refl _⟩, eaten_pieces)
  else
    if init_row = end_row ∧ init_col = end_col then
      some (true, ⟨insert (init_row, init_col) memo, Finset.subset_insert _ _⟩, eaten)
    else
      match (if h1 : (piece = Cell.greenPiece ∨ piece = Cell.greenQueen ∨
                      piece = Cell.orangeQueen) ∧
                     init_row + 3 ≤ board.length ∧ 2 ≤ init_col then
               match get_piece? board (init_row + 1) (init_col - 1) with
               | none => none
               | some mid =>
                 if check_opposite player mid then
                   check_longer_move_aux board player piece (init_row + 2) (init_col - 2)
                     end_row end_col (eaten ++ [(init_row + 1, init_col - 1)])
                     (insert (init_row, init_col) memo) eaten_pieces
                 else some (false, ⟨insert (init_row, init_col) memo,
                        Finset.Subset.refl _⟩, eaten_pieces)
             else some (false, ⟨insert (init_row, init_col) memo,
                    Finset.Subset.refl _⟩, eaten_pieces)) with
      | none => none
      | some (top_right, m2, e2) =>
        match (if h2 : (piece = Cell.greenPiece ∨ piece = Cell.greenQueen ∨
                        piece = Cell.orangeQueen) ∧
                       init_row + 3 ≤ board.length ∧ init_col + 3 ≤ board.length then
                 match get_piece? board (init_row + 1) (init_col + 1) with
                 | none => none
                 | some mid =>
                   if check_opposite player mid then
                     check_longer_move_aux board player piece (init_row + 2) (init_col + 2)
                       end_row end_col (eaten ++ [(init_row + 1, init_col + 1)])
                       m2.val e2
                   else some (false, ⟨m2.val, Finset.Subset.refl _⟩, e2)
               else some (false, ⟨m2.val, Finset.Subset.refl _⟩, e2)) with
        | none => none
        | some (top_left, m3, e3) =>
          match (if h3 : (piece = Cell.orangePiece ∨ piece = Cell.greenQueen ∨
                          piece = Cell.orangeQueen) ∧
                         2 ≤ init_row ∧ init_col + 3 ≤ board.length then
                   match get_piece? board (init_row - 1) (init_col + 1) with
                   | none => none
                   | some mid =>
                     if check_opposite player mid then
                       check_longer_move_aux board player piece (init_row - 2) (init_col + 2)
                         end_row end_col (eaten ++ [(init_row - 1, init_col + 1)])
                         m3.val e3
                     else some (false, ⟨m3.val, Finset.Subset.refl _⟩, e3)
                 else some (false, ⟨m3.val, Finset.Subset.refl _⟩, e3)) with
          | none => none
          | some (bottom_right, m4, e4) =>
            match (if h4 : (piece = Cell.orangePiece ∨ piece = Cell.greenQueen ∨
                            piece = Cell.orangeQueen) ∧
                           2 ≤ init_row ∧ 2 ≤ init_col then
                     match get_piece? board (init_row - 1) (init_col - 1) with
                     | none => none
                     | some mid =>
                       if check_opposite player mid then
                         check_longer_move_aux board player piece (init_row - 2) (init_col - 2)
                           end_row end_col (eaten ++ [(init_row - 1, init_col - 1)])
                           m4.val e4
                       else some (false, ⟨m4.val, Finset.Subset.refl _⟩, e4)
                   else some (false, ⟨m4.val, Finset.Subset.refl _⟩, e4)) with
            | none => none
            | some (bottom_left, m5, e5) =>
              some (top_right || top_left || bottom_right || bottom_left,
                ⟨m5.val, Finset.Subset.trans (Finset.subset_insert _ _)
                  (Finset.Subset.trans m2.2 (Finset.Subset.trans m3.2
                    (Finset.Subset.trans m4.2 m5.2)))⟩, e5)
termination_by ((Finset.range (max (init_row + 1) board.length) ×ˢ
  Finset.range (max (init_col + 1) board.length)) \ memo).card
decreasing_by
  · exact search_measure_lt hmem (Finset.Subset.refl _)
      (Nat.max_le.mpr ⟨Nat.le_trans h1.2.1 (Nat.le_max_right _ _), Nat.le_max_right _ _⟩)
      (Nat.max_le.mpr ⟨Nat.le_trans (by omega) (Nat.le_max_left _ _), Nat.le_max_right _ _⟩)
  · exact search_measure_lt hmem m2.2
      (Nat.max_le.mpr ⟨Nat.le_trans h2.2.1 (Nat.le_max_right _ _), Nat.le_max_right _ _⟩)
      (Nat.max_le.mpr ⟨Nat.le_trans h2.2.2 (Nat.le_max_right _ _), Nat.le_max_right _ _⟩)
  · exact search_measure_lt hmem (Finset.Subset.trans
        (Finset.Subset.trans m2.2 m3.2) (Finset.Subset.refl _))
      (Nat.max_le.mpr ⟨Nat.le_trans (by omega) (Nat.le_max_left _ _), Nat.le_max_right _ _⟩)
      (Nat.max_le.mpr ⟨Nat.le_trans h3.2.2 (Nat.le_max_right _ _), Nat.le_max_right _ _⟩)
  · exact search_measure_lt hmem (Finset.Subset.trans m2.2
        (Finset.Subset.trans m3.2 m4.2))
      (Nat.max_le.mpr ⟨Nat.le_trans (by omega) (Nat.le_max_left _ _), Nat.le_max_right _ _⟩)
      (Nat.max_le.mpr ⟨Nat.le_trans (by omega) (Nat.le_max_left _ _), Nat.le_max_right _ _⟩)

/-- The capture search with the growth proof stripped: result truthiness,
final visited set, final `eaten_pieces`. -/
def check_longer_move (board : List (List Cell)) (player : Player) (piece : Cell)
    (init_row init_col end_row end_col : Nat) (eaten : List (Nat × Nat))
    (memo : Finset (Nat × Nat)) (eaten_pieces : List (Nat × Nat)) :
    Option (Bool × Finset (Nat × Nat) × List (Nat × Nat)) :=
  (check_longer_move_aux board player piece init_row init_col end_row end_col
    eaten memo eaten_pieces).map (fun t => (t.1, t.2.1.val, t.2.2))

/-- `validate_move` from `checkers_logic.py`.  The result carries the verdict,
the reason text, and the game object after the call (the call may clear
`self.memo` and, through the search, update `self.memo` and
`self.eaten_pieces`); `none` models an uncaught `IndexError`. -/
def validate_move (s : CheckersLogic) (init_row init_col end_row end_col : Nat) :
    Option (Bool × String × CheckersLogic) :=
  if check_same_move init_row init_col end_row end_col then
    some (false, "You have to move the piece", s)
  else
    match check_wrong_direction s.board init_row init_col end_row with
    | none => none
    | some wrong =>
      if wrong then some (false, "You have to move forward", s)
      else
        if ((end_row : Int) - (init_row : Int)).natAbs = 1 ∧
           ((init_col : Int) - (end_col : Int)).natAbs = 1 then
          match check_basic_move s.board end_row end_col with
          | none => none
          | some occupied =>
            if occupied then
              some (false, "You can not move there, there is already a piece", s)
            else some (true, "", s)
        else
          match get_piece? s.board init_row init_col with
          | none => none
          | some piece =>
            match check_longer_move s.board s.current_player piece init_row init_col
                end_row end_col [] (∅ : Finset (Nat × Nat)) s.eaten_pieces with
            | none => none
            | some (ok, memo2, eaten2) =>
              let s2 : CheckersLogic := { s with memo := memo2, eaten_pieces := eaten2 }
              if ok then some (true, "", s2)
              else some (false, "That move is not allowed", s2)

/-- The mutation part of `perform_move` from `checkers_logic.py`: relocate
the piece, clear the start square when it differs from the end square, apply
pending captures, promote.  `perform_move` then evaluates the end condition
on the result. -/
def perform_move_pre (s : CheckersLogic) (init_row init_col end_row end_col : Nat) :
    Option CheckersLogic :=
  match get_piece? s.board init_row init_col with
  | none => none
  | some moving =>
    match set_cell? s.board end_row end_col moving with
    | none => none
    | some b1 =>
      match (if init_row ≠ end_row ∨ init_col ≠ end_col then
               (set_cell? b1 init_row init_col Cell.empty).map
                 (fun b => ({ s with board := b } : CheckersLogic))
             else some { s with board := b1 }) with
      | none => none
      | some s2 =>
        match (if 0 < s2.eaten_pieces.length then eat_pieces s2 else some s2) with
        | none => none
        | some s3 => check_piece_promotion_and_promote s3 end_row end_col

/-- `perform_move` from `checkers_logic.py`: the board mutations followed by
`check_end`. -/
def perform_move (s : CheckersLogic) (init_row init_col end_row end_col : Nat) :
    Option CheckersLogic :=
  (perform_move_pre s init_row init_col end_row end_col).map check_end

/-- The starting board built by `init_game`: even rows fill from column 1,
odd rows from column 0; rows 0 to 2 hold green men, rows 5 to 7 orange men. -/
def init_board : List (List Cell) :=
  [[Cell.empty, Cell.greenPiece, Cell.empty, Cell.greenPiece,
    Cell.empty, Cell.greenPiece, Cell.empty, Cell.greenPiece],
   [Cell.greenPiece, Cell.empty, Cell.greenPiece, Cell.empty,
    Cell.greenPiece, Cell.empty, Cell.greenPiece, Cell.empty],
   [Cell.empty, Cell.greenPiece, Cell.empty, Cell.greenPiece,
    Cell.empty, Cell.greenPiece, Cell.empty, Cell.greenPiece],
   [Cell.empty, Cell.empty, Cell.empty, Cell.empty,
    Cell.empty, Cell.empty, Cell.empty, Cell.empty],
   [Cell.empty, Cell.empty, Cell.empty, Cell.empty,
    Cell.empty, Cell.empty, Cell.empty, Cell.empty],
   [Cell.orangePiece, Cell.empty, Cell.orangePiece, Cell.empty,
    Cell.orangePiece, Cell.empty, Cell.orangePiece, Cell.empty],
   [Cell.empty, Cell.orangePiece, Cell.empty, Cell.orangePiece,
    Cell.empty, Cell.orangePiece, Cell.empty, Cell.orangePiece],
   [Cell.orangePiece, Cell.empty, Cell.orangePiece, Cell.empty,
    Cell.orangePiece, Cell.empty, Cell.orangePiece, Cell.empty]]

/-- `init_game` from `checkers_logic.py`. -/
def init_game : CheckersLogic :=
  { board := init_board
    green_pieces := 12
    orange_pieces := 12
    eaten_pieces := []
    current_player := Player.green
    winner := none
    memo := (∅ : Finset (Nat × Nat)) }

/-- The grid is the fixed 8 by 8 square established by `init_game`. -/
def board_wf (board : List (List Cell)) : Prop :=
  board.length = 8 ∧ ∀ row ∈ board, row.length = 8

instance (board : List (List Cell)) : Decidable (board_wf board) := by
  unfold board_wf; infer_instance

/-- The 64 squares of the 8 by 8 board. -/
def grid_squares : Finset (Nat × Nat) := Finset.range 8 ×ˢ Finset.range 8

/-- Number of cells of the board satisfying a predicate (the spec-side
piece count). -/
def count_cells (board : List (List Cell)) (p : Cell → Bool) : Nat :=
  (board.map (fun row => (row.filter p).length)).sum

/-- Green cells: green man or green king. -/
def is_green_cell : Cell → Bool
  | Cell.greenPiece => true
  | Cell.greenQueen => true
  | _ => false

/-- Orange cells: orange man or orange king. -/
def is_orange_cell : Cell → Bool
  | Cell.orangePiece => true
  | Cell.orangeQueen => true
  | _ => false

/-- The capture search again, indexed by an explicit recursion-depth budget
(`fuel`).  The outer `Option` is fuel exhaustion, the inner `Option` is the
`IndexError` of a board read; otherwise the body is branch for branch the
body of `check_longer_move_aux`.  Structural recursion on `fuel` makes this
version kernel-computable, and the agreement theorem below shows that fuel
`65` (one call per board square, plus the call that hits the visited set or
the target) always suffices. -/
def check_longer_move_fuel (board : List (List Cell)) (player : Player) :
    Nat → Cell → Nat → Nat → Nat → Nat → List (Nat × Nat) → Finset (Nat × Nat) →
    List (Nat × Nat) → Option (Option (Bool × Finset (Nat × Nat) × List (Nat × Nat)))
  | 0, _, _, _, _, _, _, _, _ => none
  | fuel + 1, piece, init_row, init_col, end_row, end_col, eaten, memo, eaten_pieces =>
    if (init_row, init_col) ∈ memo then some (some (false, memo, eaten_pieces))
    else
      if init_row = end_row ∧ init_col = end_col then
        some (some (true, insert (init_row, init_col) memo, eaten))
      else
        match (if (piece = Cell.greenPiece ∨ piece = Cell.greenQueen ∨
                   piece = Cell.orangeQueen) ∧
                  init_row + 3 ≤ board.length ∧ 2 ≤ init_col then
                 match get_piece? board (init_row + 1) (init_col - 1) with
                 | none => some none
                 | some mid =>
                   if check_opposite player mid then
                     check_longer_move_fuel board player fuel piece (init_row + 2)
                       (init_col - 2) end_row end_col
                       (eaten ++ [(init_row + 1, init_col - 1)])
                       (insert (init_row, init_col) memo) eaten_pieces
                   else some (some (false, insert (init_row, init_col) memo, eaten_pieces))
               else some (some (false, insert (init_row, init_col) memo, eaten_pieces))) with
        | none => none
        | some none => some none
        | some (some (top_right, m2, e2)) =>
          match (if (piece = Cell.greenPiece ∨ piece = Cell.greenQueen ∨
                     piece = Cell.orangeQueen) ∧
                    init_row + 3 ≤ board.length ∧ init_col + 3 ≤ board.length then
                   match get_piece? board (init_row + 1) (init_col + 1) with
                   | none => some none
                   | some mid =>
                     if check_opposite player mid then
                       check_longer_move_fuel board player fuel piece (init_row + 2)
                         (init_col + 2) end_row end_col
                         (eaten ++ [(init_row + 1, init_col + 1)]) m2 e2
                     else some (some (false, m2, e2))
                 else some (some (false, m2, e2))) with
          | none => none
          | some none => some none
          | some (some (top_left, m3, e3)) =>
            match (if (piece = Cell.orangePiece ∨ piece = Cell.greenQueen ∨
                       piece = Cell.orangeQueen) ∧
                      2 ≤ init_row ∧ init_col + 3 ≤ board.length then
                     match get_piece? board (init_row - 1) (init_col + 1) with
                     | none => some none
                     | some mid =>
                       if check_opposite player mid then
                         check_longer_move_fuel board player fuel piece (init_row - 2)
                           (init_col + 2) end_row end_col
                           (eaten ++ [(init_row - 1, init_col + 1)]) m3 e3
                       else some (some (false, m3, e3))
                   else some (some (false, m3, e3))) with
            | none => none
            | some none => some none
            | some (some (bottom_right, m4, e4)) =>
              match (if (piece = Cell.orangePiece ∨ piece = Cell.greenQueen ∨
                         piece = Cell.orangeQueen) ∧
                        2 ≤ init_row ∧ 2 ≤ init_col then
                       match get_piece? board (init_row - 1) (init_col - 1) with
                       | none => some none
                       | some mid =>
                         if check_opposite player mid then
                           check_longer_move_fuel board player fuel piece (init_row - 2)
                             (init_col - 2) end_row end_col
                             (eaten ++ [(init_row - 1, init_col - 1)]) m4 e4
                         else some (some (false, m4, e4))
                     else some (some (false, m4, e4))) with
              | none => none
              | some none => some none
              | some (some (bottom_left, m5, e5)) =>
                some (some (top_right || top_left || bottom_right || bottom_left, m5, e5))

/-- On the 8 by 8 board every in-range read succeeds. -/
theorem get_piece?_wf {board : List (List Cell)} (hwf : board_wf board)
    {r c : Nat} (hr : r < 8) (hc : c < 8) : ∃ p, get_piece? board r c = some p := by
  rcases hwf with ⟨hlen, hrows⟩
  have hr' : r < board.length := by omega
  have hrowlen : (board.get ⟨r, hr'⟩).length = 8 :=
    hrows _ (board.get_mem r hr')
  have hc' : c < (board.get ⟨r, hr'⟩).length := by omega
  refine ⟨(board.get ⟨r, hr'⟩).get ⟨c, hc'⟩, ?_⟩
  unfold get_piece?
  rw [List.get?_eq_get hr']
  exact List.get?_eq_get hc'

/-- One inner call of the capture search: the visited set has gained the
current square, so the remaining fuel budget strictly drops. -/
theorem fuel_budget_step {memo m2 : Finset (Nat × Nat)} {ir ic fuel : Nat}
    (h8r : ir < 8) (h8c : ic < 8) (hmem : (ir, ic) ∉ memo)
    (hsub : insert (ir, ic) memo ⊆ m2)
    (hfuel : 64 - (memo ∩ grid_squares).card < fuel + 1) :
    64 - (m2 ∩ grid_squares).card < fuel := by
  have hg : (ir, ic) ∈ grid_squares := by
    simp only [grid_squares, Finset.mem_product, Finset.mem_range]
    exact ⟨h8r, h8c⟩
  have h1 : insert (ir, ic) memo ∩ grid_squares = insert (ir, ic) (memo ∩ grid_squares) :=
    Finset.insert_inter_of_mem hg
  have h2 : ((insert (ir, ic) memo) ∩ grid_squares).card = (memo ∩ grid_squares).card + 1 := by
    rw [h1, Finset.card_insert_of_not_mem]
    exact fun hx => hmem (Finset.mem_inter.mp hx).1
  have h3 : ((insert (ir, ic) memo) ∩ grid_squares).card ≤ (m2 ∩ grid_squares).card :=
    Finset.card_le_card (Finset.inter_subset_inter hsub (Finset.Subset.refl _))
  have h4 : (memo ∩ grid_squares).card < 64 := by
    have hsubg : memo ∩ grid_squares ⊂ grid_squares := by
      rw [Finset.ssubset_iff_of_subset Finset.inter_subset_right]
      exact ⟨(ir, ic), hg, fun hx => hmem (Finset.mem_inter.mp hx).1⟩
    have hcard : grid_squares.card = 64 := by decide
    have := Finset.card_lt_card hsubg
    omega
  omega

/-- One directional branch of the capture search: if the fuel-indexed body of
the branch is related to the well-founded body at the landing square, the two
whole branch expressions are related (and neither runs out of fuel or reads
off the board). -/
theorem branch_spec (board : List (List Cell)) (player : Player) (piece : Cell)
    (fuel end_row end_col midr midc tgtr tgtc : Nat)
    (eaten2 : List (Nat × Nat)) (memoIn : Finset (Nat × Nat)) (efIn : List (Nat × Nat))
    (cond : Prop) [Decidable cond]
    (hmid : cond → ∃ p, get_piece? board midr midc = some p)
    (hrec : ∀ mid, cond → get_piece? board midr midc = some mid →
      check_opposite player mid = true →
      ∃ b m e, check_longer_move_fuel board player fuel piece tgtr tgtc end_row end_col
          eaten2 memoIn efIn = some (some (b, m, e)) ∧
        Option.map (fun t => (t.1, t.2.1.val, t.2.2))
          (check_longer_move_aux board player piece tgtr tgtc end_row end_col
            eaten2 memoIn efIn) = some (b, m, e)) :
    ∃ b m e,
      (if cond then
         match get_piece? board midr midc with
         | none => some none
         | some mid =>
           if check_opposite player mid then
             check_longer_move_fuel board player fuel piece tgtr tgtc end_row end_col
               eaten2 memoIn efIn
           else some (some (false, memoIn, efIn))
       else some (some (false, memoIn, efIn))) = some (some (b, m, e)) ∧
      Option.map (fun t => (t.1, t.2.1.val, t.2.2))
        (if h : cond then
           match get_piece? board midr midc with
           | none => none
           | some mid =>
             if check_opposite player mid then
               check_longer_move_aux board player piece tgtr tgtc end_row end_col
                 eaten2 memoIn efIn
             else some (false, ⟨memoIn, Finset.Subset.refl _⟩, efIn)
         else some (false, ⟨memoIn, Finset.Subset.refl _⟩, efIn)) = some (b, m, e) := by
  by_cases hcond : cond
  · obtain ⟨p, hp⟩ := hmid hcond
    simp only [if_pos hcond, dif_pos hcond, hp]
    by_cases hopp : check_opposite player p = true
    · simp only [if_pos hopp]
      exact hrec p hcond hp hopp
    · simp only [if_neg hopp]
      exact ⟨false, memoIn, efIn, rfl, rfl⟩
  · simp only [if_neg hcond, dif_neg hcond]
    exact ⟨false, memoIn, efIn, rfl, rfl⟩

/-- Fuel agreement for the capture search: on the 8 by 8 board, starting from
an in-range square with enough fuel for the at most 64 fresh squares the
search can visit, the fuel-indexed search neither exhausts its fuel nor hits
an out-of-range read, and computes exactly the result of the well-founded
embedding of `check_longer_move`. -/
theorem check_longer_move_fuel_spec (board : List (List Cell)) (player : Player)
    (hwf : board_wf board) :
    ∀ fuel piece init_row init_col end_row end_col eaten memo eaten_pieces,
      init_row < 8 → init_col < 8 →
      64 - (memo ∩ grid_squares).card < fuel →
      ∃ b m e,
        check_longer_move_fuel board player fuel piece init_row init_col end_row end_col
            eaten memo eaten_pieces = some (some (b, m, e)) ∧
        check_longer_move board player piece init_row init_col end_row end_col
            eaten memo eaten_pieces = some (b, m, e) := by
  intro fuel
  induction fuel with
  | zero =>
    intro piece ir ic er ec eaten memo ef h8r h8c hfuel
    omega
  | succ fuel ih =>
    intro piece ir ic er ec eaten memo ef h8r h8c hfuel
    unfold check_longer_move
    rw [check_longer_move_aux]
    by_cases hmem : (ir, ic) ∈ memo
    · simp only [check_longer_move_fuel, if_pos hmem, dif_pos hmem]
      exact ⟨false, memo, ef, rfl, rfl⟩
    · by_cases hbase : ir = er ∧ ic = ec
      · simp only [check_longer_move_fuel, if_neg hmem, dif_neg hmem, if_pos hbase]
        exact ⟨true, insert (ir, ic) memo, eaten, rfl, rfl⟩
      · simp only [check_longer_move_fuel, if_neg hmem, dif_neg hmem, if_neg hbase]
        have hL := hwf.1
        obtain ⟨b1, m1, e1, hf1, ha1⟩ :=
          branch_spec board player piece fuel er ec (ir + 1) (ic - 1) (ir + 2) (ic - 2)
            (eaten ++ [(ir + 1, ic - 1)]) (insert (ir, ic) memo) ef
            ((piece = Cell.greenPiece ∨ piece = Cell.greenQueen ∨
              piece = Cell.orangeQueen) ∧ ir + 3 ≤ board.length ∧ 2 ≤ ic)
            (fun hcond => by
              obtain ⟨hpk, h31, h2c⟩ := hcond
              exact get_piece?_wf hwf (by omega) (by omega))
            (fun mid hcond hmid0 hopp => by
              obtain ⟨hpk, h31, h2c⟩ := hcond
              exact ih piece (ir + 2) (ic - 2) er ec _ _ _ (by omega) (by omega)
                (fuel_budget_step h8r h8c hmem (Finset.Subset.refl _) hfuel))
        simp only [hf1]
        obtain ⟨⟨b1x, mm1, e1x⟩, hx1, hmap1⟩ := Option.map_eq_some'.mp ha1
        simp only [Prod.mk.injEq] at hmap1
        obtain ⟨h1b, h1m, h1e⟩ := hmap1
        subst h1b; subst h1m; subst h1e
        simp only [hx1]
        obtain ⟨b2, m2, e2, hf2, ha2⟩ :=
          branch_spec board player piece fuel er ec (ir + 1) (ic + 1) (ir + 2) (ic + 2)
            (eaten ++ [(ir + 1, ic + 1)]) mm1.val e1x
            ((piece = Cell.greenPiece ∨ piece = Cell.greenQueen ∨
              piece = Cell.orangeQueen) ∧ ir + 3 ≤ board.length ∧ ic + 3 ≤ board.length)
            (fun hcond => by
              obtain ⟨hpk, h31, h3c⟩ := hcond
              exact get_piece?_wf hwf (by omega) (by omega))
            (fun mid hcond hmid0 hopp => by
              obtain ⟨hpk, h31, h3c⟩ := hcond
              exact ih piece (ir + 2) (ic + 2) er ec _ _ _ (by omega) (by omega)
                (fuel_budget_step h8r h8c hmem mm1.2 hfuel))
        simp only [hf2]
        obtain ⟨⟨b2x, mm2, e2x⟩, hx2, hmap2⟩ := Option.map_eq_some'.mp ha2
        simp only [Prod.mk.injEq] at hmap2
        obtain ⟨h2b, h2m, h2e⟩ := hmap2
        subst h2b; subst h2m; subst h2e
        simp only [hx2]
        obtain ⟨b3, m3, e3, hf3, ha3⟩ :=
          branch_spec board player piece fuel er ec (ir - 1) (ic + 1) (ir - 2) (ic + 2)
            (eaten ++ [(ir - 1, ic + 1)]) mm2.val e2x
            ((piece = Cell.orangePiece ∨ piece = Cell.greenQueen ∨
              piece = Cell.orangeQueen) ∧ 2 ≤ ir ∧ ic + 3 ≤ board.length)
            (fun hcond => by
              obtain ⟨hpk, h2r, h3c⟩ := hcond
              exact get_piece?_wf hwf (by omega) (by omega))
            (fun mid hcond hmid0 hopp => by
              obtain ⟨hpk, h2r, h3c⟩ := hcond
              exact ih piece (ir - 2) (ic + 2) er ec _ _ _ (by omega) (by omega)
                (fuel_budget_step h8r h8c hmem
                  (Finset.Subset.trans mm1.2 mm2.2) hfuel))
        simp only [hf3]
        obtain ⟨⟨b3x, mm3, e3x⟩, hx3, hmap3⟩ := Option.map_eq_some'.mp ha3
        simp only [Prod.mk.injEq] at hmap3
        obtain ⟨h3b, h3m, h3e⟩ := hmap3
        subst h3b; subst h3m; subst h3e
        simp only [hx3]
        obtain ⟨b4, m4, e4, hf4, ha4⟩ :=
          branch_spec board player piece fuel er ec (ir - 1) (ic - 1) (ir - 2) (ic - 2)
            (eaten ++ [(ir - 1, ic - 1)]) mm3.val e3x
            ((piece = Cell.orangePiece ∨ piece = Cell.greenQueen ∨
              piece = Cell.orangeQueen) ∧ 2 ≤ ir ∧ 2 ≤ ic)
            (fun hcond => by
              obtain ⟨hpk, h2r, h2c⟩ := hcond
              exact get_piece?_wf hwf (by omega) (by omega))
            (fun mid hcond hmid0 hopp => by
              obtain ⟨hpk, h2r, h2c⟩ := hcond
              exact ih piece (ir - 2) (ic - 2) er ec _ _ _ (by omega) (by omega)
                (fuel_budget_step h8r h8c hmem
                  (Finset.Subset.trans mm1.2 (Finset.Subset.trans mm2.2 mm3.2)) hfuel))
        simp only [hf4]
        obtain ⟨⟨b4x, mm4, e4x⟩, hx4, hmap4⟩ := Option.map_eq_some'.mp ha4
        simp only [Prod.mk.injEq] at hmap4
        obtain ⟨h4b, h4m, h4e⟩ := hmap4
        subst h4b; subst h4m; subst h4e
        simp only [hx4]
        exact ⟨b1x || b2x || b3x || b4x, mm4.val, e4x, rfl, rfl⟩

/-- `validate_move` with the capture search run at fuel 65; fuel exhaustion
is conflated with the error case, which the agreement theorem shows cannot
happen on the 8 by 8 board.  This version is kernel-computable. -/
def validate_move_fuel (s : CheckersLogic) (init_row init_col end_row end_col : Nat) :
    Option (Bool × String × CheckersLogic) :=
  if check_same_move init_row init_col end_row end_col then
    some (false, "You have to move the piece", s)
  else
    match check_wrong_direction s.board init_row init_col end_row with
    | none => none
    | some wrong =>
      if wrong then some (false, "You have to move forward", s)
      else
        if ((end_row : Int) - (init_row : Int)).natAbs = 1 ∧
           ((init_col : Int) - (end_col : Int)).natAbs = 1 then
          match check_basic_move s.board end_row end_col with
          | none => none
          | some occupied =>
            if occupied then
              some (false, "You can not move there, there is already a piece", s)
            else some (true, "", s)
        else
          match get_piece? s.board init_row init_col with
          | none => none
          | some piece =>
            match check_longer_move_fuel s.board s.current_player 65 piece init_row
                init_col end_row end_col [] (∅ : Finset (Nat × Nat)) s.eaten_pieces with
            | none => none
            | some none => none
            | some (some (ok, memo2, eaten2)) =>
              let s2 : CheckersLogic := { s with memo := memo2, eaten_pieces := eaten2 }
              if ok then some (true, "", s2)
              else some (false, "That move is not allowed", s2)

/-- On the 8 by 8 board, `validate_move` agrees with its fuel-65 variant as
soon as the start square is in range (the only coordinates the capture
search expands from). -/
theorem validate_move_fuel_agrees (s : CheckersLogic) (ir ic er ec : Nat)
    (hwf : board_wf s.board) (h8r : ir < 8) (h8c : ic < 8) :
    validate_move s ir ic er ec = validate_move_fuel s ir ic er ec := by
  unfold validate_move validate_move_fuel
  by_cases hsame : check_same_move ir ic er ec = true
  · simp [hsame]
  · simp only [hsame]
    rcases hwd : check_wrong_direction s.board ir ic er with _ | wrong
    · simp [hwd]
    · rcases wrong with _ | _
      · simp only [hwd]
        by_cases habs : ((er : Int) - (ir : Int)).natAbs = 1 ∧
            ((ic : Int) - (ec : Int)).natAbs = 1
        · simp [habs]
        · simp only [if_neg habs]
          rcases hgp : get_piece? s.board ir ic with _ | piece
          · simp [hgp]
          · obtain ⟨b, m, e, hf, ha⟩ := check_longer_move_fuel_spec s.board
              s.current_player hwf 65 piece ir ic er ec [] (∅ : Finset (Nat × Nat))
              s.eaten_pieces h8r h8c (by omega)
            simp [hgp, hf, ha]
      · simp [hwd]

/-- `check_wrong_direction` succeeds whenever its start square is on the
board. -/
theorem check_wrong_direction_wf {board : List (List Cell)} (hwf : board_wf board)
    {ir ic : Nat} (er : Nat) (h8r : ir < 8) (h8c : ic < 8) :
    ∃ w, check_wrong_direction board ir ic er = some w := by
  obtain ⟨p, hp⟩ := get_piece?_wf hwf h8r h8c
  unfold check_wrong_direction
  simp only [hp]
  by_cases h1 : p = Cell.greenPiece ∧ ((er : Int) - (ir : Int)) ≤ 0
  · rw [if_pos h1]
    exact ⟨true, rfl⟩
  · rw [if_neg h1]
    by_cases h2 : p = Cell.orangePiece ∧ 0 ≤ ((er : Int) - (ir : Int))
    · rw [if_pos h2]
      exact ⟨true, rfl⟩
    · rw [if_neg h2]
      exact ⟨false, rfl⟩

/-- `validate_move` never hits an `IndexError` when all four coordinates are
in range: it returns a verdict, the reason is empty exactly on acceptance,
and a rejection reason is one of the four fixed messages. -/
theorem validate_move_spec (s : CheckersLogic) (ir ic er ec : Nat)
    (hwf : board_wf s.board) (h8r : ir < 8) (h8c : ic < 8)
    (h8er : er < 8) (h8ec : ec < 8) :
    ∃ b r s2, validate_move s ir ic er ec = some (b, r, s2) ∧
      (b = true → r = "") ∧
      (b = false → r ∈ ["You have to move the piece", "You have to move forward",
        "You can not move there, there is already a piece", "That move is not allowed"]) := by
  unfold validate_move
  by_cases hsame : check_same_move ir ic er ec = true
  · exact ⟨false, "You have to move the piece", s, by simp [hsame], by simp, by decide⟩
  · obtain ⟨w, hwd⟩ := check_wrong_direction_wf hwf er h8r h8c
    rcases w with _ | _
    · by_cases habs : ((er : Int) - (ir : Int)).natAbs = 1 ∧
          ((ic : Int) - (ec : Int)).natAbs = 1
      · obtain ⟨d, hd⟩ := get_piece?_wf hwf h8er h8ec
        have hbm : check_basic_move s.board er ec = some (d != Cell.empty) := by
          unfold check_basic_move
          rw [hd]
        rcases hocc : (d != Cell.empty) with _ | _
        · rw [hocc] at hbm
          exact ⟨true, "", s, by simp [hsame, hwd, habs, hbm], by simp, by simp⟩
        · rw [hocc] at hbm
          exact ⟨false, "You can not move there, there is already a piece", s,
            by simp [hsame, hwd, habs, hbm], by simp, by decide⟩
      · obtain ⟨p, hp⟩ := get_piece?_wf hwf h8r h8c
        obtain ⟨b, m, e, hf, ha⟩ := check_longer_move_fuel_spec s.board
          s.current_player hwf 65 p ir ic er ec [] (∅ : Finset (Nat × Nat))
          s.eaten_pieces h8r h8c (by omega)
        rcases b with _ | _
        · exact ⟨false, "That move is not allowed",
            { s with memo := m, eaten_pieces := e },
            by simp [hsame, hwd, habs, hp, ha], by simp, by decide⟩
        · exact ⟨true, "", { s with memo := m, eaten_pieces := e },
            by simp [hsame, hwd, habs, hp, ha], by simp, by simp⟩
    · exact ⟨false, "You have to move forward", s,
        by simp [hsame, hwd], by simp, by decide⟩

/-- A row of eight empty squares. -/
def row_empty : List Cell := List.replicate 8 Cell.empty

/-- Board of the spec scenario for a single jump: a green man at (3,2), an
orange man at (4,3), (5,4) empty. -/
def board_jump : List (List Cell) :=
  [row_empty, row_empty, row_empty,
   row_empty.set 2 Cell.greenPiece,
   row_empty.set 3 Cell.orangePiece,
   row_empty, row_empty, row_empty]

/-- Game state for the single-jump scenario, with matching piece counts. -/
def s_jump : CheckersLogic :=
  { board := board_jump
    green_pieces := 1
    orange_pieces := 1
    eaten_pieces := []
    current_player := Player.green
    winner := none
    memo := (∅ : Finset (Nat × Nat)) }

/-- The single-jump board with the landing square (5,4) already holding a
green man: the capture search never checks the landing square. -/
def board_jump_blocked : List (List Cell) :=
  [row_empty, row_empty, row_empty,
   row_empty.set 2 Cell.greenPiece,
   row_empty.set 3 Cell.orangePiece,
   row_empty.set 4 Cell.greenPiece,
   row_empty, row_empty]

/-- Game state for the blocked-landing jump, with counts matching the board
(two green pieces, one orange piece). -/
def s_jump_blocked : CheckersLogic :=
  { board := board_jump_blocked
    green_pieces := 2
    orange_pieces := 1
    eaten_pieces := []
    current_player := Player.green
    winner := none
    memo := (∅ : Finset (Nat × Nat)) }

/-- A lone green king at (5,4). -/
def s_king : CheckersLogic :=
  { board := [row_empty, row_empty, row_empty, row_empty, row_empty,
              row_empty.set 4 Cell.greenQueen, row_empty, row_empty]
    green_pieces := 1
    orange_pieces := 0
    eaten_pieces := []
    current_player := Player.green
    winner := none
    memo := (∅ : Finset (Nat × Nat)) }

/-- A lone green man at (2,1); `eaten_pieces` still holds a stale square
from an earlier validated-but-not-applied capture. -/
def s_stale : CheckersLogic :=
  { board := [row_empty, row_empty, row_empty.set 1 Cell.greenPiece,
              row_empty, row_empty, row_empty, row_empty, row_empty]
    green_pieces := 1
    orange_pieces := 0
    eaten_pieces := [(4, 3)]
    current_player := Player.green
    winner := none
    memo := (∅ : Finset (Nat × Nat)) }

/-- A finished game: orange has no pieces left and the winner is set, but a
green man still sits at (2,1). -/
def s_done : CheckersLogic :=
  { board := [row_empty, row_empty, row_empty.set 1 Cell.greenPiece,
              row_empty, row_empty, row_empty, row_empty, row_empty]
    green_pieces := 1
    orange_pieces := 0
    eaten_pieces := []
    current_player := Player.green
    winner := some Player.green
    memo := (∅ : Finset (Nat × Nat)) }

/-- Claim C1 (failing input): on a board whose counts match (two green men,
one orange man), with the green man at (3,2) able to jump the orange man at
(4,3) but the landing square (5,4) already holding a green man,
`validate_move 3 2 5 4` accepts the move, and after `perform_move` the
stored `green_pieces` is still 2 while the board holds only one green cell:
the relocation overwrote the green man on the landing square without any
count update, violating the count invariant the claim states. -/
theorem claim_C1_counts_desync :
    count_cells s_jump_blocked.board is_green_cell = 2 ∧
    s_jump_blocked.green_pieces = 2 ∧
    count_cells s_jump_blocked.board is_orange_cell = 1 ∧
    s_jump_blocked.orange_pieces = 1 ∧
    (validate_move s_jump_blocked 3 2 5 4).bind
      (fun t => if t.1 = true ∧ t.2.1 = "" then
          (perform_move t.2.2 3 2 5 4).map
            (fun s2 => (s2.green_pieces, count_cells s2.board is_green_cell))
        else none)
      = some (2, 1) := by
  refine ⟨by decide, by decide, by decide, by decide, ?_⟩
  rw [validate_move_fuel_agrees s_jump_blocked 3 2 5 4 (by decide) (by decide) (by decide)]
  decide

/-- Claim C4: on a board where the green current player has a man at (3,2),
an orange man sits at (4,3) and (5,4) is empty, `validate_move 3 2 5 4`
returns valid with the pending capture list exactly [(4,3)], and the
subsequent `perform_move` sets (4,3) to empty and decrements
`orange_pieces` by exactly one. -/
theorem claim_C4_single_jump :
    (validate_move s_jump 3 2 5 4).bind
      (fun t => if t.1 = true ∧ t.2.1 = "" ∧ t.2.2.eaten_pieces = [(4, 3)] then
          (perform_move t.2.2 3 2 5 4).map
            (fun s2 => (get_piece? s2.board 4 3, s2.orange_pieces))
        else none)
      = some (some Cell.empty, s_jump.orange_pieces - 1) := by
  rw [validate_move_fuel_agrees s_jump 3 2 5 4 (by decide) (by decide) (by decide)]
  decide

/-- Claim C2 (counterexample): a green king at (5,4) moving one step
backwards (for green) to the empty square (4,3) is accepted by
`validate_move`, not rejected with the wrong-direction reason the claim
requires. -/
theorem claim_C2_counterexample :
    get_piece? s_king.board 5 4 = some Cell.greenQueen ∧
    validate_move s_king 5 4 4 3 = some (true, "", s_king) := by
  constructor
  · decide
  · decide

/-- Claim C2 (amended): kings are exempt from the wrong-direction check
(`check_wrong_direction` tests only the man cells), so a king proposing a
single-step non-capturing move in any diagonal direction onto an empty
square is accepted. -/
theorem claim_C2_kings_exempt (s : CheckersLogic) (ir ic er ec : Nat) (piece : Cell)
    (hp : get_piece? s.board ir ic = some piece)
    (hking : piece = Cell.greenQueen ∨ piece = Cell.orangeQueen) :
    check_wrong_direction s.board ir ic er = some false ∧
    (check_same_move ir ic er ec = false →
     ((er : Int) - (ir : Int)).natAbs = 1 → ((ic : Int) - (ec : Int)).natAbs = 1 →
     get_piece? s.board er ec = some Cell.empty →
     validate_move s ir ic er ec = some (true, "", s)) := by
  have hwd : check_wrong_direction s.board ir ic er = some false := by
    unfold check_wrong_direction
    simp only [hp]
    rcases hking with h | h <;> subst h <;>
      rw [if_neg (by simp), if_neg (by simp)]
  refine ⟨hwd, fun hsame habs1 habs2 hdest => ?_⟩
  have hbm : check_basic_move s.board er ec = some false := by
    unfold check_basic_move
    rw [hdest]
    rfl
  unfold validate_move
  simp [hsame, hwd, habs1, habs2, hbm]

/-- Claim C2 (witness): the green king at (5,4) of the counterexample state
also witnesses the amended claim at the concrete move (5,4) to (4,3). -/
theorem claim_C2_witness :
    check_wrong_direction s_king.board 5 4 4 = some false ∧
    validate_move s_king 5 4 4 3 = some (true, "", s_king) :=
  ⟨(claim_C2_kings_exempt s_king 5 4 4 3 Cell.greenQueen (by decide) (Or.inl rfl)).1,
   (claim_C2_kings_exempt s_king 5 4 4 3 Cell.greenQueen (by decide) (Or.inl rfl)).2
     (by decide) (by decide) (by decide) (by decide)⟩

/-- Claim C3 (counterexample): a single-step move that passes all checks is
accepted, but the pending capture list is not empty: `validate_move` never
clears `eaten_pieces` on the single-step path, so a stale entry from an
earlier validated-but-unapplied capture survives. -/
theorem claim_C3_counterexample :
    validate_move s_stale 2 1 3 0 = some (true, "", s_stale) ∧
    s_stale.eaten_pieces = [(4, 3)] := by
  constructor
  · decide
  · decide

/-- Claim C3 (amended): a single diagonal step that passes the same-square
and direction checks is rejected with the occupied-square reason when the
destination is non-empty, and accepted when it is empty - in both cases the
state, including the pending capture list, is returned unchanged (so the
list is empty exactly when it was empty at entry, as in the normal
validate-then-apply cycle). -/
theorem claim_C3_single_step (s : CheckersLogic) (ir ic er ec : Nat)
    (hsame : check_same_move ir ic er ec = false)
    (hdir : check_wrong_direction s.board ir ic er = some false)
    (habs1 : ((er : Int) - (ir : Int)).natAbs = 1)
    (habs2 : ((ic : Int) - (ec : Int)).natAbs = 1) :
    ∀ d, get_piece? s.board er ec = some d →
      (d ≠ Cell.empty →
        validate_move s ir ic er ec =
          some (false, "You can not move there, there is already a piece", s)) ∧
      (d = Cell.empty → validate_move s ir ic er ec = some (true, "", s)) := by
  intro d hd
  have hbm : check_basic_move s.board er ec = some (d != Cell.empty) := by
    unfold check_basic_move
    rw [hd]
  constructor
  · intro hne
    have hocc : (d != Cell.empty) = true := by simp [hne]
    rw [hocc] at hbm
    unfold validate_move
    simp [hsame, hdir, habs1, habs2, hbm]
  · intro heq
    have hocc : (d != Cell.empty) = false := by simp [heq]
    rw [hocc] at hbm
    unfold validate_move
    simp [hsame, hdir, habs1, habs2, hbm]

/-- Claim C3 (witness): the amended claim applied to the concrete
single-step move (2,1) to (3,0) of the stale-list state. -/
theorem claim_C3_witness :
    check_same_move 2 1 3 0 = false ∧
    validate_move s_stale 2 1 3 0 = some (true, "", s_stale) :=
  ⟨by decide,
   (claim_C3_single_step s_stale 2 1 3 0 (by decide) (by decide) (by decide) (by decide)
     Cell.empty (by decide)).2 rfl⟩

/-- Winner bookkeeping of `check_end`: a zero orange count yields a green
winner (the orange test runs second and overrides), and a zero green count
with a non-zero orange count yields an orange winner. -/
theorem check_end_winner_prop (x : CheckersLogic) :
    ((check_end x).orange_pieces = 0 → (check_end x).winner = some Player.green) ∧
    ((check_end x).green_pieces = 0 → (check_end x).orange_pieces ≠ 0 →
      (check_end x).winner = some Player.orange) := by
  unfold check_end
  by_cases hg : x.green_pieces = 0 <;> by_cases ho : x.orange_pieces = 0 <;>
    simp [hg, ho]

/-- Claim C6 (counterexample): with the winner already set (orange has no
pieces), the logic layer still accepts and applies a further green move:
neither `validate_move` nor `perform_move` consults `winner`. -/
theorem claim_C6_counterexample :
    s_done.winner = some Player.green ∧ s_done.orange_pieces = 0 ∧
    validate_move s_done 2 1 3 0 = some (true, "", s_done) ∧
    (perform_move s_done 2 1 3 0).isSome = true := by
  refine ⟨rfl, rfl, by decide, by decide⟩

/-- Claim C6 (amended): after a committed move, a zero orange count sets the
winner to green and a zero green count (with orange still on the board) sets
it to orange; however, the logic layer itself keeps accepting moves once a
winner is set - `validate_move` ignores the `winner` field entirely (the
game loop in the UI is what stops requesting moves). -/
theorem claim_C6_end_condition :
    (∀ (s : CheckersLogic) (ir ic er ec : Nat) (s2 : CheckersLogic),
      perform_move s ir ic er ec = some s2 →
      (s2.orange_pieces = 0 → s2.winner = some Player.green) ∧
      (s2.green_pieces = 0 → s2.orange_pieces ≠ 0 → s2.winner = some Player.orange)) ∧
    (∀ (s : CheckersLogic) (w : Option Player) (ir ic er ec : Nat),
      (validate_move { s with winner := w } ir ic er ec).map (fun t => (t.1, t.2.1)) =
        (validate_move s ir ic er ec).map (fun t => (t.1, t.2.1))) := by
  constructor
  · intro s ir ic er ec s2 h
    unfold perform_move at h
    obtain ⟨s4, hs4, hmap⟩ := Option.map_eq_some'.mp h
    subst hmap
    exact check_end_winner_prop s4
  · intro s w ir ic er ec
    obtain ⟨bo, gp, op, ep, cp, wi, mm⟩ := s
    unfold validate_move
    dsimp only
    by_cases hsame : check_same_move ir ic er ec = true
    · simp [hsame]
    · simp only [hsame]
      rcases hwd : check_wrong_direction bo ir ic er with _ | wrong
      · simp [hwd]
      · rcases wrong with _ | _
        · simp only [hwd]
          by_cases habs : ((er : Int) - (ir : Int)).natAbs = 1 ∧
              ((ic : Int) - (ec : Int)).natAbs = 1
          · simp only [if_pos habs]
            rcases hbm : check_basic_move bo er ec with _ | occ
            · simp [hbm]
            · rcases occ with _ | _ <;> simp [hbm]
          · simp only [if_neg habs]
            rcases hgp : get_piece? bo ir ic with _ | piece
            · simp [hgp]
            · simp only [hgp]
              rcases hcl : check_longer_move bo cp piece ir ic er ec []
                  (∅ : Finset (Nat × Nat)) ep with _ | ⟨ok, m2, e2⟩
              · simp [hcl]
              · rcases ok with _ | _ <;> simp [hcl]
        · simp [hwd]

/-- Claim C6 (witness): the amended end-condition applied to the concrete
single jump of the spec scenario, whose capture removes orange's last piece
and sets the green winner. -/
theorem claim_C6_witness :
    (∀ s2, perform_move s_jump 3 2 5 4 = some s2 →
        s2.orange_pieces = 0 → s2.winner = some Player.green) ∧
    (validate_move { s_king with winner := some Player.orange } 5 4 4 3).map
        (fun t => (t.1, t.2.1)) =
      (validate_move s_king 5 4 4 3).map (fun t => (t.1, t.2.1)) :=
  ⟨fun s2 h => (claim_C6_end_condition.1 s_jump 3 2 5 4 s2 h).1,
   claim_C6_end_condition.2 s_king (some Player.orange) 5 4 4 3⟩

/-- Claim C7 (counterexample): with the start row 8 just off the board,
`validate_move` hits an uncaught `IndexError` inside
`check_wrong_direction` (modelled as `none`), so it does not return a
verdict for every input. -/
theorem claim_C7_counterexample :
    validate_move init_game 8 0 1 1 = none := by decide

/-- Claim C7 (amended): for every state with a well-formed 8 by 8 board and
all four coordinates in range, `validate_move` returns a verdict pair whose
reason is empty when valid and one of the four fixed messages when
invalid. -/
theorem claim_C7_reasons (s : CheckersLogic) (ir ic er ec : Nat)
    (hwf : board_wf s.board) (h8r : ir < 8) (h8c : ic < 8)
    (h8er : er < 8) (h8ec : ec < 8) :
    ∃ b r s2, validate_move s ir ic er ec = some (b, r, s2) ∧
      (b = true → r = "") ∧
      (b = false → r ∈ ["You have to move the piece", "You have to move forward",
        "You can not move there, there is already a piece", "That move is not allowed"]) :=
  validate_move_spec s ir ic er ec hwf h8r h8c h8er h8ec

/-- Claim C7 (witness): the reason classification at the concrete starting
position and the opening move (2,1) to (3,0). -/
theorem claim_C7_witness :
    board_wf init_game.board ∧
    (∃ b r s2, validate_move init_game 2 1 3 0 = some (b, r, s2) ∧
      (b = true → r = "") ∧
      (b = false → r ∈ ["You have to move the piece", "You have to move forward",
        "You can not move there, there is already a piece", "That move is not allowed"])) :=
  ⟨by decide,
   claim_C7_reasons init_game 2 1 3 0 (by decide) (by decide) (by decide)
     (by decide) (by decide)⟩

/-- Claim C9: `validate_move` never changes the board, the piece counts, the
current player or the winner, whatever its verdict; only the transient
visited set and the pending capture list of the returned state may differ. -/
theorem claim_C9_validate_frame (s : CheckersLogic) (ir ic er ec : Nat)
    (b : Bool) (r : String) (s2 : CheckersLogic)
    (h : validate_move s ir ic er ec = some (b, r, s2)) :
    s2.board = s.board ∧ s2.green_pieces = s.green_pieces ∧
    s2.orange_pieces = s.orange_pieces ∧ s2.current_player = s.current_player ∧
    s2.winner = s.winner := by
  unfold validate_move at h
  by_cases hsame : check_same_move ir ic er ec = true
  · rw [if_pos hsame] at h
    injection h with h
    injection h with h1 h
    injection h with h2 h3
    subst h3
    exact ⟨rfl, rfl, rfl, rfl, rfl⟩
  · rw [if_neg hsame] at h
    rcases hwd : check_wrong_direction s.board ir ic er with _ | wrong
    · rw [hwd] at h
      exact Option.noConfusion h
    · rcases wrong with _ | _ <;> rw [hwd] at h
      · by_cases habs : ((er : Int) - (ir : Int)).natAbs = 1 ∧
            ((ic : Int) - (ec : Int)).natAbs = 1
        · rw [if_pos habs] at h
          rcases hbm : check_basic_move s.board er ec with _ | occ
          · rw [hbm] at h
            exact Option.noConfusion h
          · rcases occ with _ | _ <;> rw [hbm] at h
            · injection h with h
              injection h with h1 h
              injection h with h2 h3
              subst h3
              exact ⟨rfl, rfl, rfl, rfl, rfl⟩
            · injection h with h
              injection h with h1 h
              injection h with h2 h3
              subst h3
              exact ⟨rfl, rfl, rfl, rfl, rfl⟩
        · rw [if_neg habs] at h
          rcases hgp : get_piece? s.board ir ic with _ | piece
          · rw [hgp] at h
            exact Option.noConfusion h
          · simp only [hgp] at h
            rcases hcl : check_longer_move s.board s.current_player piece ir ic er ec []
                (∅ : Finset (Nat × Nat)) s.eaten_pieces with _ | ⟨ok, m2, e2⟩
            · rw [hcl] at h
              exact Option.noConfusion h
            · rcases ok with _ | _ <;> rw [hcl] at h
              · injection h with h
                injection h with h1 h
                injection h with h2 h3
                subst h3
                exact ⟨rfl, rfl, rfl, rfl, rfl⟩
              · injection h with h
                injection h with h1 h
                injection h with h2 h3
                subst h3
                exact ⟨rfl, rfl, rfl, rfl, rfl⟩
      · injection h with h
        injection h with h1 h
        injection h with h2 h3
        subst h3
        exact ⟨rfl, rfl, rfl, rfl, rfl⟩

/-- Claim C9 (witness): the frame condition at a concrete accepted
single-step move of the lone-king state. -/
theorem claim_C9_witness :
    s_king.board = s_king.board ∧ s_king.green_pieces = s_king.green_pieces ∧
    s_king.orange_pieces = s_king.orange_pieces ∧
    s_king.current_player = s_king.current_player ∧ s_king.winner = s_king.winner :=
  claim_C9_validate_frame s_king 5 4 4 3 true "" s_king (by decide)

/-- Claim C10: with all four coordinates in range on the 8 by 8 board,
every board access of `validate_move` - including every recursive capture
search call, whose row and column guards keep each landing square on the
board - is in range, so the validation never hits the `IndexError` case. -/
theorem claim_C10_in_range (s : CheckersLogic) (ir ic er ec : Nat)
    (hwf : board_wf s.board) (h8r : ir < 8) (h8c : ic < 8)
    (h8er : er < 8) (h8ec : ec < 8) :
    (validate_move s ir ic er ec).isSome = true := by
  obtain ⟨b, r, s2, h, -, -⟩ := validate_move_spec s ir ic er ec hwf h8r h8c h8er h8ec
  rw [h]
  rfl

/-- Claim C10 (witness): in-range access at the starting position for the
concrete move (2,1) to (4,3), which exercises the capture search. -/
theorem claim_C10_witness :
    board_wf init_game.board ∧
    (validate_move init_game 2 1 4 3).isSome = true :=
  ⟨by decide,
   claim_C10_in_range init_game 2 1 4 3 (by decide) (by decide) (by decide)
     (by decide) (by decide)⟩

/-- Claim C8: the capture search terminates, and its recursion depth is
bounded through the visited set: each call either returns at the visited-set
check or inserts its current square, the guards keep every recursive call
inside the 64 board squares, and therefore a fuel budget of 65 - one call
per board square plus the final call that stops at the visited set, the
target or a blocked branch - already reproduces the full search exactly. -/
theorem claim_C8_search_terminates (board : List (List Cell)) (player : Player)
    (piece : Cell) (ir ic er ec : Nat) (eaten : List (Nat × Nat))
    (memo : Finset (Nat × Nat)) (ef : List (Nat × Nat))
    (hwf : board_wf board) (h8r : ir < 8) (h8c : ic < 8) :
    check_longer_move_fuel board player 65 piece ir ic er ec eaten memo ef
      = some (check_longer_move board player piece ir ic er ec eaten memo ef) := by
  obtain ⟨b, m, e, hf, ha⟩ := check_longer_move_fuel_spec board player hwf 65 piece
    ir ic er ec eaten memo ef h8r h8c (by omega)
  rw [hf, ha]

/-- Claim C8 (witness): the fuel-65 search and the unbounded search agree on
the concrete jump scenario. -/
theorem claim_C8_witness :
    board_wf board_jump ∧
    check_longer_move_fuel board_jump Player.green 65 Cell.greenPiece 3 2 5 4 []
        (∅ : Finset (Nat × Nat)) []
      = some (check_longer_move board_jump Player.green Cell.greenPiece 3 2 5 4 []
          (∅ : Finset (Nat × Nat)) []) :=
  ⟨by decide,
   claim_C8_search_terminates board_jump Player.green Cell.greenPiece 3 2 5 4 []
     (∅ : Finset (Nat × Nat)) [] (by decide) (by decide) (by decide)⟩

/-- Spec-side table (from the spec's direction-eligibility rule): which
pieces may extend a capture chain through the two row-increasing
diagonals. -/
def chain_up_eligible : Cell → Bool
  | Cell.greenPiece => true
  | Cell.greenQueen => true
  | Cell.orangeQueen => true
  | _ => false

/-- Spec-side table: which pieces may extend a capture chain through the two
row-decreasing diagonals. -/
def chain_down_eligible : Cell → Bool
  | Cell.orangePiece => true
  | Cell.greenQueen => true
  | Cell.orangeQueen => true
  | _ => false

/-- The fuel-indexed capture search driven by explicit direction-eligibility
flags instead of the piece tests of the source: the row-increasing block
runs when `useUp` is set, the row-decreasing block when `useDown` is set,
everything else as in `check_longer_move_fuel`. -/
def check_longer_move_dirs_fuel (board : List (List Cell)) (player : Player) :
    Nat → Bool → Bool → Cell → Nat → Nat → Nat → Nat → List (Nat × Nat) →
    Finset (Nat × Nat) → List (Nat × Nat) →
    Option (Option (Bool × Finset (Nat × Nat) × List (Nat × Nat)))
  | 0, _, _, _, _, _, _, _, _, _, _ => none
  | fuel + 1, useUp, useDown, piece, init_row, init_col, end_row, end_col, eaten,
      memo, eaten_pieces =>
    if (init_row, init_col) ∈ memo then some (some (false, memo, eaten_pieces))
    else
      if init_row = end_row ∧ init_col = end_col then
        some (some (true, insert (init_row, init_col) memo, eaten))
      else
        match (if useUp = true ∧ init_row + 3 ≤ board.length ∧ 2 ≤ init_col then
                 match get_piece? board (init_row + 1) (init_col - 1) with
                 | none => some none
                 | some mid =>
                   if check_opposite player mid then
                     check_longer_move_dirs_fuel board player fuel useUp useDown piece
                       (init_row + 2) (init_col - 2) end_row end_col
                       (eaten ++ [(init_row + 1, init_col - 1)])
                       (insert (init_row, init_col) memo) eaten_pieces
                   else some (some (false, insert (init_row, init_col) memo, eaten_pieces))
               else some (some (false, insert (init_row, init_col) memo, eaten_pieces))) with
        | none => none
        | some none => some none
        | some (some (top_right, m2, e2)) =>
          match (if useUp = true ∧ init_row + 3 ≤ board.length ∧
                    init_col + 3 ≤ board.length then
                   match get_piece? board (init_row + 1) (init_col + 1) with
                   | none => some none
                   | some mid =>
                     if check_opposite player mid then
                       check_longer_move_dirs_fuel board player fuel useUp useDown piece
                         (init_row + 2) (init_col + 2) end_row end_col
                         (eaten ++ [(init_row + 1, init_col + 1)]) m2 e2
                     else some (some (false, m2, e2))
                 else some (some (false, m2, e2))) with
          | none => none
          | some none => some none
          | some (some (top_left, m3, e3)) =>
            match (if useDown = true ∧ 2 ≤ init_row ∧ init_col + 3 ≤ board.length then
                     match get_piece? board (init_row - 1) (init_col + 1) with
                     | none => some none
                     | some mid =>
                       if check_opposite player mid then
                         check_longer_move_dirs_fuel board player fuel useUp useDown piece
                           (init_row - 2) (init_col + 2) end_row end_col
                           (eaten ++ [(init_row - 1, init_col + 1)]) m3 e3
                       else some (some (false, m3, e3))
                   else some (some (false, m3, e3))) with
            | none => none
            | some none => some none
            | some (some (bottom_right, m4, e4)) =>
              match (if useDown = true ∧ 2 ≤ init_row ∧ 2 ≤ init_col then
                       match get_piece? board (init_row - 1) (init_col - 1) with
                       | none => some none
                       | some mid =>
                         if check_opposite player mid then
                           check_longer_move_dirs_fuel board player fuel useUp useDown piece
                             (init_row - 2) (init_col - 2) end_row end_col
                             (eaten ++ [(init_row - 1, init_col - 1)]) m4 e4
                         else some (some (false, m4, e4))
                     else some (some (false, m4, e4))) with
              | none => none
              | some none => some none
              | some (some (bottom_left, m5, e5)) =>
                some (some (top_right || top_left || bottom_right || bottom_left, m5, e5))

/-- The source search equals the direction-table search once the flags are
instantiated from the spec-side eligibility tables. -/
theorem clm_dirs_fuel_eq (board : List (List Cell)) (player : Player) :
    ∀ (fuel : Nat) (piece : Cell) (ir ic er ec : Nat) (eaten : List (Nat × Nat))
      (memo : Finset (Nat × Nat)) (ef : List (Nat × Nat)),
      check_longer_move_dirs_fuel board player fuel (chain_up_eligible piece)
          (chain_down_eligible piece) piece ir ic er ec eaten memo ef
        = check_longer_move_fuel board player fuel piece ir ic er ec eaten memo ef := by
  intro fuel
  induction fuel with
  | zero =>
    intro piece ir ic er ec eaten memo ef
    rfl
  | succ fuel ih =>
    intro piece ir ic er ec eaten memo ef
    have hup : (chain_up_eligible piece = true) =
        (piece = Cell.greenPiece ∨ piece = Cell.greenQueen ∨
          piece = Cell.orangeQueen) := by
      cases piece <;> simp [chain_up_eligible]
    have hdown : (chain_down_eligible piece = true) =
        (piece = Cell.orangePiece ∨ piece = Cell.greenQueen ∨
          piece = Cell.orangeQueen) := by
      cases piece <;> simp [chain_down_eligible]
    simp only [check_longer_move_fuel, check_longer_move_dirs_fuel, ih, hup, hdown]

/-- Claim C5: in the capture-chain search, the direction blocks are driven
exactly by the spec's eligibility table - the full search (through the fuel
form that reproduces it on the 8 by 8 board) coincides with the
table-driven search, and the table lets a green man extend only through the
two row-increasing diagonals, an orange man only through the two
row-decreasing diagonals, and a king of either color through all four. -/
theorem claim_C5_direction_eligibility :
    (∀ (board : List (List Cell)) (player : Player) (piece : Cell)
       (ir ic er ec : Nat) (eaten : List (Nat × Nat)) (memo : Finset (Nat × Nat))
       (ef : List (Nat × Nat)), board_wf board → ir < 8 → ic < 8 →
      check_longer_move_dirs_fuel board player 65 (chain_up_eligible piece)
          (chain_down_eligible piece) piece ir ic er ec eaten memo ef
        = some (check_longer_move board player piece ir ic er ec eaten memo ef)) ∧
    chain_up_eligible Cell.greenPiece = true ∧
    chain_down_eligible Cell.greenPiece = false ∧
    chain_up_eligible Cell.orangePiece = false ∧
    chain_down_eligible Cell.orangePiece = true ∧
    chain_up_eligible Cell.greenQueen = true ∧
    chain_down_eligible Cell.greenQueen = true ∧
    chain_up_eligible Cell.orangeQueen = true ∧
    chain_down_eligible Cell.orangeQueen = true := by
  refine ⟨?_, rfl, rfl, rfl, rfl, rfl, rfl, rfl, rfl⟩
  intro board player piece ir ic er ec eaten memo ef hwf h8r h8c
  rw [clm_dirs_fuel_eq]
  obtain ⟨b, m, e, hf, ha⟩ := check_longer_move_fuel_spec board player hwf 65 piece
    ir ic er ec eaten memo ef h8r h8c (by omega)
  rw [hf, ha]

/-- Claim C5 (witness): the table-driven search and the source search agree
on the concrete jump scenario for the green man. -/
theorem claim_C5_witness :
    board_wf board_jump ∧
    check_longer_move_dirs_fuel board_jump Player.green 65
        (chain_up_eligible Cell.greenPiece) (chain_down_eligible Cell.greenPiece)
        Cell.greenPiece 3 2 5 4 [] (∅ : Finset (Nat × Nat)) []
      = some (check_longer_move board_jump Player.green Cell.greenPiece 3 2 5 4 []
          (∅ : Finset (Nat × Nat)) []) :=
  ⟨by decide,
   claim_C5_direction_eligibility.1 board_jump Player.green Cell.greenPiece 3 2 5 4 []
     (∅ : Finset (Nat × Nat)) [] (by decide) (by decide) (by decide)⟩

end Checkers
